import Mathlib

/-!
Verification of the reputation decision engine of the anti-phishing browser
extension and its proxy server.

JavaScript strings are modelled as lists of characters (`JStr`), JavaScript
`Map`s and plain objects used as dictionaries as association lists with the
usual get/set/delete operations, and timestamps (`Date.now()`) as natural
numbers.  Network requests (Google Safe Browsing, the local proxy, feed
downloads) are modelled by oracle parameters describing the outcome of the
single request a code path performs, and each embedded pipeline additionally
returns the list of remote calls it issued, so that "never calls X" claims
are statements about the embedding.

Namespaces:
* `P0`     — the proxy server variant `src/unnamed/part_000` (feeds,
             `/check`, `/checkHost`); its `findMatchingHostInSet` is
             identical to the one in `src/server/server.js`.
* `P4`     — the extension service-worker variant `src/unnamed/part_004`
             (host cache, heuristics, hover handler, navigation handler).
* `BG`     — the second service-worker variant concatenated in
             `src/background.js` (normalized host cache, direct Safe
             Browsing navigation checks).
-/

/-- JavaScript strings as lists of characters. -/
abbrev JStr := List Char

/-- `String.toList` shorthand used to write `JStr` literals. -/
def js (s : String) : JStr := s.toList

/-- JavaScript `String.prototype.toLowerCase` (ASCII case mapping,
as performed by `Char.toLower`). -/
def jsToLower (s : JStr) : JStr := s.map Char.toLower

/-- Whitespace test used by `String.prototype.trim`. -/
def jsIsWs (c : Char) : Bool := c = ' ' || c = '\t' || c = '\n' || c = '\r'

/-- JavaScript `String.prototype.trim`: drop whitespace from both ends. -/
def jsTrim (s : JStr) : JStr :=
  ((s.dropWhile jsIsWs).reverse.dropWhile jsIsWs).reverse

/-- JavaScript `String.prototype.includes`: substring containment. -/
def jsIncludes : JStr → JStr → Bool
  | [], sub => sub.isPrefixOf []
  | s@(_ :: t), sub => sub.isPrefixOf s || jsIncludes t sub

/-- JavaScript `String.prototype.endsWith`. -/
def jsEndsWith (s suf : JStr) : Bool := suf.isSuffixOf s

/-- JavaScript `String.prototype.startsWith`. -/
def jsStartsWith (s pre : JStr) : Bool := pre.isPrefixOf s

/-- JavaScript `host.split('.')`. -/
def splitOnDot : JStr → List JStr
  | [] => [[]]
  | c :: cs =>
    if c = '.' then [] :: splitOnDot cs
    else
      match splitOnDot cs with
      | [] => [[c]]
      | p :: ps => (c :: p) :: ps

/-- JavaScript `parts.join('.')`. -/
def joinDot : List JStr → JStr
  | [] => []
  | [p] => p
  | p :: ps => p ++ '.' :: joinDot ps

/-- The regular expression `/^\d+\.\d+\.\d+\.\d+$/`: exactly four
dot-separated nonempty runs of digits. -/
def isDottedQuad (h : JStr) : Bool :=
  let ps := splitOnDot h
  ps.length = 4 && ps.all (fun p => !p.isEmpty && p.all Char.isDigit)

/-! ### Association-list model of JavaScript `Map` / dictionary objects -/

/-- `Map.prototype.get` (also object property lookup). -/
def mapGet {α β : Type} [DecidableEq α] : List (α × β) → α → Option β
  | [], _ => none
  | (k, v) :: rest, key => if key = k then some v else mapGet rest key

/-- `Map.prototype.set`: replace the entry in place, or append a new one. -/
def mapSet {α β : Type} [DecidableEq α] : List (α × β) → α → β → List (α × β)
  | [], key, val => [(key, val)]
  | (k, v) :: rest, key, val =>
    if key = k then (key, val) :: rest else (k, v) :: mapSet rest key val

/-- `Map.prototype.delete`. -/
def mapDelete {α β : Type} [DecidableEq α] : List (α × β) → α → List (α × β)
  | [], _ => []
  | (k, v) :: rest, key =>
    if key = k then rest else (k, v) :: mapDelete rest key

/-- Tags for the outbound network requests a decision path can issue.
Each embedded pipeline returns the list of calls it performed. -/
inductive Call : Type
  | proxyCheckHost
  | proxyCheckUrl
  | safeBrowsingRemote
deriving DecidableEq, Repr

/-! ## P0 — proxy server (`src/unnamed/part_000`)

`findMatchingHostInSet` is textually identical in `src/server/server.js`
(over `urlhausSet` instead of `feedHostSet`); the set consulted is a
parameter here, so the same definition covers both. -/

namespace P0

/-- The suffix loop of `findMatchingHostInSet`:
`for (let i = 0; i < parts.length - 1; i++)` tests `parts.slice(i).join('.')`,
so every tail of the label list with at least two labels is tested, most
specific first, and the bare TLD (one label) is never tested. -/
def trySuffixes (set : List JStr) : List JStr → Option JStr
  | [] => none
  | [_] => none
  | p :: q :: rest =>
    if joinDot (p :: q :: rest) ∈ set then some (joinDot (p :: q :: rest))
    else trySuffixes set (q :: rest)

/-- `findMatchingHostInSet(host)`: exact membership of the lowercased host,
then dot-separated suffixes, shortest (bare TLD) excluded. -/
def findMatchingHostInSet (host : JStr) (set : List JStr) : Option JStr :=
  if host = [] then none
  else
    let h := jsToLower host
    if h ∈ set then some h
    else trySuffixes set (splitOnDot h)

/-- Outcome of the OpenPhish feed download (`fetch(OPENPHISH_URL)`).
On success the feed lines have already been parsed into hostnames
(`lines.map(hostnameFromUrl).filter(Boolean)`), which is the value the
oracle carries. -/
inductive FetchOutcome : Type
  | ok (hosts : List JStr)
  | httpNonOk
  | networkErr
deriving DecidableEq, Repr

/-- `fetchOpenPhishFeed`: a non-success response or a thrown fetch error is
caught and yields `[]`. -/
def fetchOpenPhishFeed : FetchOutcome → List JStr
  | .ok hosts => hosts
  | .httpNonOk => []
  | .networkErr => []

/-- Outcome of reading the local URLhaus hosts file. -/
inductive LocalReadOutcome : Type
  | ok (lines : List JStr)
  | missing
  | readErr
deriving DecidableEq, Repr

/-- `readLocalUrlhausHosts`: missing file or read error yields `[]`;
otherwise the trimmed nonempty lines, lowercased. -/
def readLocalUrlhausHosts : LocalReadOutcome → List JStr
  | .ok lines => lines.map jsToLower
  | .missing => []
  | .readErr => []

/-- `Set.prototype.add`: JavaScript sets keep the first insertion and
preserve insertion order. -/
def setAdd (s : List JStr) (h : JStr) : List JStr :=
  if h ∈ s then s else s ++ [h]

/-- The published feed snapshot (`feedHostSet`, `feedsLastLoaded`). -/
structure FeedState where
  hosts : List JStr
  loadedAt : Nat
deriving DecidableEq, Repr

/-- `updateFeeds`: fetch OpenPhish, read the local URLhaus file, merge both
into a fresh set and publish it as the new `feedHostSet` — unconditionally,
whatever the previous state held and however many hosts the sources
contributed. -/
def updateFeeds (st : FeedState) (openO : FetchOutcome)
    (localO : LocalReadOutcome) (now : Nat) : FeedState :=
  let openHosts := fetchOpenPhishFeed openO
  let localUrlhausHosts := readLocalUrlhausHosts localO
  let merged := (openHosts ++ localUrlhausHosts).foldl setAdd []
  { hosts := merged, loadedAt := now }

/-- URL-cache TTL: `CACHE_TTL_MS = 10 * 60 * 1000`. -/
def CACHE_TTL_MS : Nat := 10 * 60 * 1000

/-- One entry of the `/check` cache:
`{ safe, matches: { feeds, safebrowsing, phishtank }, ts, safebrowsing_used }`. -/
structure UrlCacheEntry where
  safe : Bool
  feedsMatch : Option JStr
  sbMatch : Bool
  ptMatch : Option (Bool × Bool)
  ts : Nat
  safebrowsing_used : Bool
deriving DecidableEq, Repr

/-- Outcome of the Google Safe Browsing request issued by `/check`. -/
inductive SbOutcome : Type
  | ok (found : Bool)
  | httpNonOk
  | transportErr
deriving DecidableEq, Repr

/-- Response of the `/check` endpoint: HTTP 400 with an error object, or a
JSON body `{ safe, cached, safebrowsing_used }`. -/
inductive CheckResp : Type
  | badRequest (error : JStr)
  | ok (safe : Bool) (cached : Bool) (safebrowsing_used : Bool)
deriving DecidableEq, Repr

/-- The uncached tail of `/check` (after the cache-freshness test failed):
local feed match, then Safe Browsing, then optional PhishTank.
`hostname` is the value of `new URL(url).hostname.toLowerCase()` (`none`
when URL parsing throws); `pt` is the parsed PhishTank `results` object as
`(in_database, valid)`, `none` for a null/error result. -/
def appGetCheckUncached (key : JStr) (hostname : Option JStr) (now : Nat)
    (cache : List (JStr × UrlCacheEntry)) (feeds : List JStr)
    (sb : SbOutcome) (ptConfigured : Bool) (pt : Option (Bool × Bool)) :
    CheckResp × List (JStr × UrlCacheEntry) :=
  match (match hostname with
         | some h => findMatchingHostInSet h feeds
         | none => none) with
  | some matchedHost =>
    let e : UrlCacheEntry :=
      { safe := false, feedsMatch := some matchedHost, sbMatch := false,
        ptMatch := none, ts := now, safebrowsing_used := false }
    (.ok false false false, mapSet cache key e)
  | none =>
    -- safebrowsing_used is set to true before the Safe Browsing request
    match sb with
    | .httpNonOk =>
      -- "treat as safe for now but indicate safebrowsing_used"
      let e : UrlCacheEntry :=
        { safe := true, feedsMatch := none, sbMatch := false,
          ptMatch := none, ts := now, safebrowsing_used := true }
      (.ok true false true, mapSet cache key e)
    | .transportErr =>
      -- "On SB failure, return safe:true but indicate SB was attempted"
      let e : UrlCacheEntry :=
        { safe := true, feedsMatch := none, sbMatch := false,
          ptMatch := none, ts := now, safebrowsing_used := true }
      (.ok true false true, mapSet cache key e)
    | .ok true =>
      let e : UrlCacheEntry :=
        { safe := false, feedsMatch := none, sbMatch := true,
          ptMatch := none, ts := now, safebrowsing_used := true }
      (.ok false false true, mapSet cache key e)
    | .ok false =>
      if ptConfigured then
        match pt with
        | some (inDb, valid) =>
          if inDb && valid then
            let e : UrlCacheEntry :=
              { safe := false, feedsMatch := none, sbMatch := false,
                ptMatch := some (inDb, valid), ts := now,
                safebrowsing_used := true }
            (.ok false false true, mapSet cache key e)
          else
            let e : UrlCacheEntry :=
              { safe := true, feedsMatch := none, sbMatch := false,
                ptMatch := some (inDb, valid), ts := now,
                safebrowsing_used := true }
            (.ok true false true, mapSet cache key e)
        | none =>
          let e : UrlCacheEntry :=
            { safe := true, feedsMatch := none, sbMatch := false,
              ptMatch := none, ts := now, safebrowsing_used := true }
          (.ok true false true, mapSet cache key e)
      else
        let e : UrlCacheEntry :=
          { safe := true, feedsMatch := none, sbMatch := false,
            ptMatch := none, ts := now, safebrowsing_used := true }
        (.ok true false true, mapSet cache key e)

/-- `app.get('/check')`: missing-url guard, then the fresh-cache check
(`c && (now - c.ts) < CACHE_TTL_MS`), then the uncached pipeline.
`urlQ = none` models an absent query parameter. -/
def appGetCheck (urlQ : Option JStr) (hostname : Option JStr) (now : Nat)
    (cache : List (JStr × UrlCacheEntry)) (feeds : List JStr)
    (sb : SbOutcome) (ptConfigured : Bool) (pt : Option (Bool × Bool)) :
    CheckResp × List (JStr × UrlCacheEntry) :=
  match urlQ with
  | none => (.badRequest (js ("missing url")), cache)
  | some url =>
    if url = [] then (.badRequest (js ("missing url")), cache)
    else
      match mapGet cache url with
      | some c =>
        if now - c.ts < CACHE_TTL_MS then
          (.ok c.safe true c.safebrowsing_used, cache)
        else appGetCheckUncached url hostname now cache feeds sb ptConfigured pt
      | none => appGetCheckUncached url hostname now cache feeds sb ptConfigured pt

/-- Response of the `/checkHost` endpoint.  Source field names: the JSON
body is `{ unsafe, matchedHost, safebrowsing_used }`; the first field is
called `flagged` here because its source name is a Lean keyword. -/
inductive CheckHostResp : Type
  | badRequest (error : JStr)
  | ok (flagged : Bool) (matchedHost : Option JStr) (safebrowsing_used : Bool)
deriving DecidableEq, Repr

/-- `app.get('/checkHost')`: `(req.query.host || '').toLowerCase().trim()`,
missing-host guard, then a pure feed lookup; `safebrowsing_used` is always
false and no network request is made. -/
def appGetCheckHost (hostQ : Option JStr) (feeds : List JStr) : CheckHostResp :=
  let host := jsTrim (jsToLower (hostQ.getD []))
  if host = [] then .badRequest (js ("missing host"))
  else
    match findMatchingHostInSet host feeds with
    | some matched => .ok true (some matched) false
    | none => .ok false none false

/-- The `safebrowsing_used` flag carried by a `/checkHost` response (the
400 error body carries none, i.e. false). -/
def CheckHostResp.sbUsedOf : CheckHostResp → Bool
  | .badRequest _ => false
  | .ok _ _ s => s

end P0

/-! ## P4 — extension service worker (`src/unnamed/part_004`) -/

namespace P4

/-- `HOST_CHECK_TTL_MS = 60 * 60 * 1000`. -/
def HOST_CHECK_TTL_MS : Nat := 60 * 60 * 1000

/-- A `hostCache` value: `{ safe, reason, ts }`. -/
structure HostEntry where
  safe : Bool
  reason : JStr
  ts : Nat
deriving DecidableEq, Repr

/-- `getHostCacheEntry`: lazy expiry — an entry older than the TTL is
deleted and `null` is returned; the (possibly shrunk) cache is threaded
through as the second component. -/
def getHostCacheEntry (cache : List (JStr × HostEntry)) (host : JStr)
    (now : Nat) : Option HostEntry × List (JStr × HostEntry) :=
  match mapGet cache host with
  | none => (none, cache)
  | some e =>
    if HOST_CHECK_TTL_MS < now - e.ts then (none, mapDelete cache host)
    else (some e, cache)

/-- `setHostCacheEntry(host, safe, reason)` stamps the entry with
`Date.now()`. -/
def setHostCacheEntry (cache : List (JStr × HostEntry)) (host : JStr)
    (safe : Bool) (reason : JStr) (now : Nat) : List (JStr × HostEntry) :=
  mapSet cache host { safe := safe, reason := reason, ts := now }

/-- `SUSPICIOUS_TLDS = ['tk','ml','ga','cf','gq']`. -/
def SUSPICIOUS_TLDS : List JStr :=
  [js ("tk"), js ("ml"), js ("ga"), js ("cf"), js ("gq")]

/-- `brandTokens` of `runHeuristics`. -/
def brandTokens : List JStr :=
  [js ("paypal"), js ("google"), js ("apple"), js ("amazon"),
   js ("microsoft"), js ("facebook"), js ("netflix"), js ("bank")]

/-- The brand-token loop: first token contained in the host that the host
does not end `<token>.com` with. -/
def findBrandToken (host : JStr) : List JStr → Option JStr
  | [] => none
  | b :: rest =>
    if jsIncludes host b && !jsEndsWith host (b ++ js (".com")) then some b
    else findBrandToken host rest

/-- `runHeuristics(urlStr, skipLocalDb)`, taken at the level of the
hostname the source extracts via `new URL(urlStr).hostname` (`hostRaw`
here); the `warning.html` prefix test is omitted because the navigation
listener is registered for http/https schemes only and the hover handler
builds `https://<host>/` URLs, so that test is never true on the modelled
paths.  Rule order is exactly the source order. -/
def runHeuristics (hostRaw : JStr) (allowlist blocklist : List JStr)
    (skipLocalDb : Bool) : Option JStr :=
  let host := jsToLower hostRaw
  if host = [] then none
  else if host ∈ allowlist then none
  else if skipLocalDb = false ∧ host ∈ blocklist then
    some (js ("Domain is on the local blocklist"))
  else if jsIncludes host (js ("xn--")) then
    some (js ("Punycode (possible homograph attack)"))
  else if isDottedQuad host then some (js ("IP address used as host"))
  else if 24 < host.length then some (js ("Unusually long hostname"))
  else
    let parts := splitOnDot host
    let tld := parts.getLastD []
    if tld ∈ SUSPICIOUS_TLDS then
      some (js ("Suspicious TLD (.") ++ tld ++ js (")"))
    else
      match findBrandToken host brandTokens with
      | some b =>
        some (js ("Contains brand token \"") ++ b ++
              js ("\" (possible impersonation)"))
      | none => none

/-- Outcome of the proxy `/checkHost` request issued by
`checkHostWithProxy`. -/
inductive ProxyHostResult : Type
  | respNotOk
  | fetchError
  | okSafe
  | okFlagged (matchedHost : Option JStr)
deriving DecidableEq, Repr

/-- `checkHostWithProxy`: non-OK responses and fetch errors are caught and
yield `null`; a `json.unsafe` response yields the feed-match reason. -/
def checkHostWithProxy (o : ProxyHostResult) (host : JStr) : Option JStr :=
  if host = [] then none
  else
    match o with
    | .okFlagged m => some (js ("Matched feed host: ") ++ m.getD host)
    | .respNotOk => none
    | .fetchError => none
    | .okSafe => none

/-- A `hoverCache` value: `{ status, reason, ts }` (status is the literal
JavaScript string `'safe' | 'unsafe' | 'unknown'`). -/
structure HoverEntry where
  status : JStr
  reason : JStr
  ts : Nat
deriving DecidableEq, Repr

/-- `setHoverCached`. -/
def setHoverCached (hover : List (JStr × HoverEntry)) (host : JStr)
    (status reason : JStr) (now : Nat) : List (JStr × HoverEntry) :=
  mapSet hover host { status := status, reason := reason, ts := now }

/-- What the `CHECK_HOST_HOVER` handler sends back and leaves behind. -/
structure HoverResult where
  status : JStr
  reason : JStr
  cached : Bool
  hostCache : List (JStr × HostEntry)
  hoverCache : List (JStr × HoverEntry)
  calls : List Call
deriving DecidableEq, Repr

/-- The `CHECK_HOST_HOVER` message handler: allowlist, then the persisted
host cache, then heuristics (skipping the local DB when
`useSafeBrowsingOnly`), then — only when `useCloudLookup` and not
`useSafeBrowsingOnly` — the proxy host-only feed lookup, else safe. -/
def checkHostHover (msgHost : JStr) (allowlist blocklist : List JStr)
    (useCloudLookup useSafeBrowsingOnly : Bool)
    (hostCache : List (JStr × HostEntry))
    (hoverCache : List (JStr × HoverEntry)) (now : Nat)
    (proxyHost : ProxyHostResult) : HoverResult :=
  let host := jsToLower msgHost
  if host = [] then
    { status := js ("unknown"), reason := js ("no host"), cached := false,
      hostCache := hostCache, hoverCache := hoverCache, calls := [] }
  else if host ∈ allowlist then
    { status := js ("safe"), reason := js ("allowlist"), cached := false,
      hostCache := hostCache,
      hoverCache := setHoverCached hoverCache host (js ("safe")) (js ("allowlist")) now,
      calls := [] }
  else
    match getHostCacheEntry hostCache host now with
    | (some e, hc) =>
      { status := if e.safe then js ("safe") else js ("unsafe"),
        reason := e.reason, cached := true, hostCache := hc,
        hoverCache := hoverCache, calls := [] }
    | (none, hc) =>
      match runHeuristics host allowlist blocklist useSafeBrowsingOnly with
      | some reason =>
        { status := js ("unsafe"), reason := reason, cached := false,
          hostCache := setHostCacheEntry hc host false reason now,
          hoverCache := setHoverCached hoverCache host (js ("unsafe")) reason now,
          calls := [] }
      | none =>
        if useCloudLookup = true ∧ useSafeBrowsingOnly = false then
          match checkHostWithProxy proxyHost host with
          | some hostReason =>
            { status := js ("unsafe"), reason := hostReason, cached := false,
              hostCache := setHostCacheEntry hc host false hostReason now,
              hoverCache := setHoverCached hoverCache host (js ("unsafe")) hostReason now,
              calls := [.proxyCheckHost] }
          | none =>
            { status := js ("safe"), reason := [], cached := false,
              hostCache := setHostCacheEntry hc host true [] now,
              hoverCache := setHoverCached hoverCache host (js ("safe")) [] now,
              calls := [.proxyCheckHost] }
        else
          { status := js ("safe"), reason := [], cached := false,
            hostCache := setHostCacheEntry hc host true [] now,
            hoverCache := setHoverCached hoverCache host (js ("safe")) [] now,
            calls := [] }

/-- Outcome of the proxy `/check` request issued during navigation. -/
inductive ProxyUrlResult : Type
  | respNotOk
  | fetchError
  | respOk (safe : Bool) (sbUsed : Bool) (feedsMatchedHost : Option JStr)
deriving DecidableEq, Repr

/-- What `onBeforeNavigate` decides and leaves behind (`blocked` means the
tab is redirected to the warning page). -/
structure NavResult where
  reason : Option JStr
  blocked : Bool
  apiUsed : Bool
  hostCache : List (JStr × HostEntry)
  calls : List Call
deriving DecidableEq, Repr

/-- The navigation handler of part_004.  `hostname` is
`new URL(details.url).hostname` (`none` when parsing throws, in which case
`hostOnly` falls back to `'<invalid-host>'` and `runHeuristics` returns
null).  `sbDirect` is the result of `checkWithSafeBrowsingDirect` (reason
string on a match, `null` on no-match / non-OK / fetch error).  In
Safe-Browsing-only mode the direct or proxy lookup runs first and no
allowlist consultation happens outside `runHeuristics`. -/
def onBeforeNavigate (enabled : Bool) (allowlist blocklist : List JStr)
    (useCloudLookup useDirectLookup useSafeBrowsingOnly : Bool)
    (directApiKey : JStr) (hostname : Option JStr)
    (hostCache : List (JStr × HostEntry)) (now : Nat)
    (sbDirect : Option JStr) (proxyUrl : ProxyUrlResult) : NavResult :=
  if enabled = false then
    { reason := none, blocked := false, apiUsed := false,
      hostCache := hostCache, calls := [] }
  else
    let hostOnly := match hostname with
      | some hn => jsToLower hn
      | none => js ("<invalid-host>")
    let directStep := fun (c : List (JStr × HostEntry)) (cals : List Call) =>
      if useDirectLookup = true ∧ directApiKey ≠ [] then
        match sbDirect with
        | some directReason =>
          { reason := some directReason, blocked := true, apiUsed := true,
            hostCache := setHostCacheEntry c hostOnly false directReason now,
            calls := cals ++ [Call.safeBrowsingRemote] : NavResult }
        | none =>
          { reason := none, blocked := false, apiUsed := true,
            hostCache := setHostCacheEntry c hostOnly true [] now,
            calls := cals ++ [Call.safeBrowsingRemote] }
      else
        { reason := none, blocked := false, apiUsed := false,
          hostCache := c, calls := cals }
    if useSafeBrowsingOnly then
      if useDirectLookup = true ∧ directApiKey ≠ [] then
        match sbDirect with
        | some directReason =>
          { reason := some directReason, blocked := true, apiUsed := true,
            hostCache := setHostCacheEntry hostCache hostOnly false directReason now,
            calls := [.safeBrowsingRemote] }
        | none =>
          { reason := none, blocked := false, apiUsed := true,
            hostCache := setHostCacheEntry hostCache hostOnly true [] now,
            calls := [.safeBrowsingRemote] }
      else if useCloudLookup then
        match proxyUrl with
        | .respOk safe sbUsed m =>
          if safe = false then
            { reason := some (js ("Matches proxy (feeds or Safe Browsing)")),
              blocked := true, apiUsed := sbUsed,
              hostCache := setHostCacheEntry hostCache hostOnly false
                (match m with
                 | some mh => js ("Matched feed: ") ++ mh
                 | none => js ("Proxy reported unsafe")) now,
              calls := [.proxyCheckUrl] }
          else
            { reason := none, blocked := false, apiUsed := sbUsed,
              hostCache := setHostCacheEntry hostCache hostOnly true [] now,
              calls := [.proxyCheckUrl] }
        | .respNotOk =>
          { reason := none, blocked := false, apiUsed := false,
            hostCache := hostCache, calls := [.proxyCheckUrl] }
        | .fetchError =>
          { reason := none, blocked := false, apiUsed := false,
            hostCache := hostCache, calls := [.proxyCheckUrl] }
      else
        -- no direct key and no proxy: heuristics only, skipping the local DB
        let r := match hostname with
          | some hn => runHeuristics hn allowlist blocklist true
          | none => none
        { reason := r, blocked := r.isSome, apiUsed := false,
          hostCache := hostCache, calls := [] }
    else
      match (match hostname with
             | some hn => runHeuristics hn allowlist blocklist false
             | none => none) with
      | some r =>
        { reason := some r, blocked := true, apiUsed := false,
          hostCache := hostCache, calls := [] }
      | none =>
        if useCloudLookup then
          match proxyUrl with
          | .respOk safe _ m =>
            if safe = false then
              { reason := some (js ("Matches proxy (feeds or Safe Browsing)")),
                blocked := true, apiUsed := false,
                hostCache := setHostCacheEntry hostCache hostOnly false
                  (match m with
                   | some mh => js ("Matched feed: ") ++ mh
                   | none => js ("Proxy reported unsafe")) now,
                calls := [.proxyCheckUrl] }
            else
              directStep (setHostCacheEntry hostCache hostOnly true [] now)
                [.proxyCheckUrl]
          | .respNotOk => directStep hostCache [.proxyCheckUrl]
          | .fetchError => directStep hostCache [.proxyCheckUrl]
        else directStep hostCache []

end P4

/-! ## BG — second service-worker variant in `src/background.js`
(normalized host cache, direct Safe Browsing navigation checks) -/

namespace BG

/-- `HOST_CACHE_TTL_MS = 60 * 60 * 1000`. -/
def HOST_CACHE_TTL_MS : Nat := 60 * 60 * 1000

/-- `.replace(/^https?:\/\//, '')`. -/
def stripScheme (s : JStr) : JStr :=
  if jsStartsWith s (js ("https://")) then s.drop 8
  else if jsStartsWith s (js ("http://")) then s.drop 7
  else s

/-- `.replace(/\/.*$/, '')`: cut everything from the first slash on. -/
def stripPath (s : JStr) : JStr := s.takeWhile (fun c => c ≠ '/')

/-- `.replace(/^www\./, '')`: strip one leading `www.` (the regex is not
global, so a second `www.` survives). -/
def stripWww (s : JStr) : JStr :=
  if jsStartsWith s (js ("www.")) then s.drop 4 else s

/-- `normalizeHost = h => (h||'').trim().toLowerCase()
.replace(/^https?:\/\//,'').replace(/\/.*$/,'').replace(/^www\./,'')`. -/
def normalizeHost (h : JStr) : JStr :=
  stripWww (stripPath (stripScheme (jsToLower (jsTrim h))))

/-- A `hostCache` value in this variant: `{ safe, reason, ts, source }`. -/
structure HostEntry where
  safe : Bool
  reason : JStr
  ts : Nat
  source : JStr
deriving DecidableEq, Repr

/-- `setHostCacheEntry(host, safe, reason, source)`: the key is the
normalized host. -/
def setHostCacheEntry (cache : List (JStr × HostEntry)) (host : JStr)
    (safe : Bool) (reason source : JStr) (now : Nat) :
    List (JStr × HostEntry) :=
  mapSet cache (normalizeHost host)
    { safe := safe, reason := reason, ts := now, source := source }

/-- `getHostCacheEntry(host)`: normalized key, lazy expiry with delete. -/
def getHostCacheEntry (cache : List (JStr × HostEntry)) (host : JStr)
    (now : Nat) : Option HostEntry × List (JStr × HostEntry) :=
  let n := normalizeHost host
  match mapGet cache n with
  | none => (none, cache)
  | some e =>
    if HOST_CACHE_TTL_MS < now - e.ts then (none, mapDelete cache n)
    else (some e, cache)

/-- `persistHostCacheDebounced` serializes the cache verbatim
(`obj[k] = v` for every entry) into `chrome.storage.local`. -/
def persistHostCache (cache : List (JStr × HostEntry)) :
    List (JStr × HostEntry) := cache

/-- `loadPersistedHostCache`: starting from the empty in-memory cache of a
fresh process, admit exactly the raw entries with a nonzero timestamp
younger than the TTL.  (`Object.entries` yields distinct keys, so the
`Map.set` calls only append, i.e. the load is a filter.) -/
def loadPersistedHostCache (raw : List (JStr × HostEntry)) (now : Nat) :
    List (JStr × HostEntry) :=
  raw.filter (fun kv => decide (kv.2.ts ≠ 0 ∧ now - kv.2.ts < HOST_CACHE_TTL_MS))

/-- Outcome of `callSafeBrowsingDirect`: an `{error}` result (no key,
non-OK response or thrown fetch), a threat match, or a clean no-match. -/
inductive SbResult : Type
  | sbError
  | sbMatched
  | sbNoMatch
deriving DecidableEq, Repr

/-- What this variant's navigation listener decides and leaves behind. -/
structure NavResult where
  blocked : Bool
  hostCache : List (JStr × HostEntry)
  calls : List Call
deriving DecidableEq, Repr

/-- The navigation listener of the BG variant: enabled gate, allowlist
(normalized) override, packaged-blocklist precedence, host-cache
short-circuit, then Google Safe Browsing — whose error outcome is cached
as a SAFE entry with source `'gsb-error'` ("mark safe to avoid repeated
failing calls"). -/
def onBeforeNavigate (enabled : Bool) (allowlistRaw blocklist : List JStr)
    (cache : List (JStr × HostEntry)) (directApiKey : JStr)
    (hostname : JStr) (now : Nat) (sb : SbResult) : NavResult :=
  if enabled = false then { blocked := false, hostCache := cache, calls := [] }
  else
    let hostOnly := normalizeHost hostname
    let allowlist := allowlistRaw.map normalizeHost
    if hostOnly ∈ allowlist then
      { blocked := false, hostCache := cache, calls := [] }
    else if hostOnly ∈ blocklist then
      { blocked := true,
        hostCache := setHostCacheEntry cache hostOnly false
          (js ("Domain is on the packaged blocklist")) (js ("local-blocklist")) now,
        calls := [] }
    else
      match getHostCacheEntry cache hostOnly now with
      | (some e, c) => { blocked := !e.safe, hostCache := c, calls := [] }
      | (none, c) =>
        if directApiKey = [] then
          { blocked := false,
            hostCache := setHostCacheEntry c hostOnly true [] (js ("no-api-key")) now,
            calls := [] }
        else
          match sb with
          | .sbError =>
            { blocked := false,
              hostCache := setHostCacheEntry c hostOnly true [] (js ("gsb-error")) now,
              calls := [.safeBrowsingRemote] }
          | .sbMatched =>
            { blocked := true,
              hostCache := setHostCacheEntry c hostOnly false
                (js ("Matches Google Safe Browsing")) (js ("safebrowsing")) now,
              calls := [.safeBrowsingRemote] }
          | .sbNoMatch =>
            { blocked := false,
              hostCache := setHostCacheEntry c hostOnly true [] (js ("safebrowsing")) now,
              calls := [.safeBrowsingRemote] }

end BG
theorem mapGet_mapSet_self {α β : Type} [DecidableEq α]
    (m : List (α × β)) (k : α) (v : β) : mapGet (mapSet m k v) k = some v := by
  induction m with
  | nil => simp [mapSet, mapGet]
  | cons hd tl ih =>
    obtain ⟨k', v'⟩ := hd
    by_cases h : k = k'
    · simp [mapSet, mapGet, h]
    · simp [mapSet, mapGet, h, ih]

theorem mapGet_mapSet_ne {α β : Type} [DecidableEq α]
    (m : List (α × β)) (k k' : α) (v : β) (h : k' ≠ k) :
    mapGet (mapSet m k v) k' = mapGet m k' := by
  induction m with
  | nil => simp [mapSet, mapGet, h]
  | cons hd tl ih =>
    obtain ⟨a, b⟩ := hd
    by_cases hk : k = a
    · subst hk
      simp [mapSet, mapGet, h]
    · by_cases hk' : k' = a
      · simp [mapSet, mapGet, hk, hk']
      · simp [mapSet, mapGet, hk, hk', ih]

theorem mapGet_eq_none_of_not_mem_keys {α β : Type} [DecidableEq α]
    (m : List (α × β)) (k : α) (h : k ∉ m.map Prod.fst) : mapGet m k = none := by
  induction m with
  | nil => rfl
  | cons hd tl ih =>
    obtain ⟨a, b⟩ := hd
    simp only [List.map_cons, List.mem_cons, not_or] at h
    simp [mapGet, h.1, ih h.2]

theorem not_mem_keys_mapDelete {α β : Type} [DecidableEq α]
    (m : List (α × β)) (k : α) (hnd : (m.map Prod.fst).Nodup) :
    k ∉ (mapDelete m k).map Prod.fst := by
  induction m with
  | nil => simp [mapDelete]
  | cons hd tl ih =>
    obtain ⟨a, b⟩ := hd
    simp only [List.map_cons, List.nodup_cons] at hnd
    by_cases hk : k = a
    · subst hk
      simpa [mapDelete] using hnd.1
    · simp only [mapDelete, if_neg hk, List.map_cons, List.mem_cons, not_or]
      exact ⟨hk, ih hnd.2⟩

theorem mapGet_mapDelete_self {α β : Type} [DecidableEq α]
    (m : List (α × β)) (k : α) (hnd : (m.map Prod.fst).Nodup) :
    mapGet (mapDelete m k) k = none :=
  mapGet_eq_none_of_not_mem_keys _ _ (not_mem_keys_mapDelete m k hnd)

/-! ### Lemmas about `splitOnDot` / `joinDot` -/

theorem splitOnDot_ne_nil (l : JStr) : splitOnDot l ≠ [] := by
  cases l with
  | nil => simp [splitOnDot]
  | cons c cs =>
    simp only [splitOnDot]
    split
    · simp
    · split <;> simp

theorem joinDot_cons (p : JStr) (ps : List JStr) (h : ps ≠ []) :
    joinDot (p :: ps) = p ++ '.' :: joinDot ps := by
  cases ps with
  | nil => exact absurd rfl h
  | cons q qs => rfl

theorem joinDot_splitOnDot (l : JStr) : joinDot (splitOnDot l) = l := by
  induction l with
  | nil => rfl
  | cons c cs ih =>
    by_cases hc : c = '.'
    · subst hc
      rw [show splitOnDot ('.' :: cs) = [] :: splitOnDot cs from by
        simp [splitOnDot]]
      rw [joinDot_cons [] (splitOnDot cs) (splitOnDot_ne_nil cs), ih]
      rfl
    · simp only [splitOnDot, if_neg hc]
      obtain ⟨p, ps, hps⟩ := List.exists_cons_of_ne_nil (splitOnDot_ne_nil cs)
      rw [hps] at ih ⊢
      cases ps with
      | nil => simpa [joinDot] using congrArg (c :: ·) ih
      | cons q qs =>
        rw [joinDot_cons (c :: p) (q :: qs) (by simp),
          joinDot_cons p (q :: qs) (by simp)] at *
        simpa using ih

theorem splitOnDot_append_dot (a b : JStr) :
    splitOnDot (a ++ '.' :: b) = splitOnDot a ++ splitOnDot b := by
  induction a with
  | nil => simp [splitOnDot]
  | cons c cs ih =>
    by_cases hc : c = '.'
    · subst hc
      simp [splitOnDot, ih]
    · obtain ⟨p, ps, hps⟩ := List.exists_cons_of_ne_nil (splitOnDot_ne_nil cs)
      simp only [List.cons_append, splitOnDot, if_neg hc, hps]
      simp only [List.append_eq]
      rw [ih, hps]
      simp

theorem dot_mem_joinDot (ps : List JStr) (h : 2 ≤ ps.length) :
    '.' ∈ joinDot ps := by
  cases ps with
  | nil => simp at h
  | cons p qs =>
    cases qs with
    | nil => simp at h
    | cons q rest =>
      rw [joinDot_cons p (q :: rest) (by simp)]
      exact List.mem_append_right _ (List.mem_cons_self _ _)

theorem two_le_splitOnDot_length (l : JStr) (h : '.' ∈ l) :
    2 ≤ (splitOnDot l).length := by
  obtain ⟨s, t, rfl⟩ := List.append_of_mem h
  rw [splitOnDot_append_dot]
  have hs := splitOnDot_ne_nil s
  have ht := splitOnDot_ne_nil t
  have hs1 : 1 ≤ (splitOnDot s).length := List.length_pos.mpr hs
  have ht1 : 1 ≤ (splitOnDot t).length := List.length_pos.mpr ht
  simp only [List.length_append]
  omega

/-! ### Lemmas about `P0.trySuffixes` / `P0.findMatchingHostInSet` -/

namespace P0

theorem trySuffixes_sound (set : List JStr) (ps : List JStr) (m : JStr)
    (h : trySuffixes set ps = some m) :
    m ∈ set ∧ ∃ qs, 2 ≤ qs.length ∧ qs <:+ ps ∧ m = joinDot qs := by
  induction ps with
  | nil => simp [trySuffixes] at h
  | cons p rest ih =>
    cases rest with
    | nil => simp [trySuffixes] at h
    | cons q rest2 =>
      by_cases hin : joinDot (p :: q :: rest2) ∈ set
      · simp only [trySuffixes, if_pos hin, Option.some.injEq] at h
        subst h
        exact ⟨hin, p :: q :: rest2, by simp, List.suffix_refl _, rfl⟩
      · simp only [trySuffixes, if_neg hin] at h
        obtain ⟨hm, qs, hlen, hsuf, heq⟩ := ih h
        exact ⟨hm, qs, hlen, hsuf.trans (List.suffix_cons p _), heq⟩

theorem trySuffixes_complete (set : List JStr) (ps qs : List JStr)
    (hsuf : qs <:+ ps) (hlen : 2 ≤ qs.length) (hmem : joinDot qs ∈ set) :
    (trySuffixes set ps).isSome := by
  induction ps with
  | nil =>
    rw [List.suffix_nil.mp hsuf] at hlen
    simp at hlen
  | cons p rest ih =>
    cases rest with
    | nil =>
      rcases List.suffix_cons_iff.mp hsuf with heq | hsuf2
      · subst heq; simp at hlen
      · rw [List.suffix_nil.mp hsuf2] at hlen; simp at hlen
    | cons q rest2 =>
      by_cases hin : joinDot (p :: q :: rest2) ∈ set
      · simp [trySuffixes, hin]
      · rcases List.suffix_cons_iff.mp hsuf with heq | hsuf2
        · rw [heq] at hmem; exact absurd hmem hin
        · simpa [trySuffixes, hin] using ih hsuf2

end P0

theorem joinDot_append (a b : List JStr) (ha : a ≠ []) (hb : b ≠ []) :
    joinDot (a ++ b) = joinDot a ++ '.' :: joinDot b := by
  induction a with
  | nil => exact absurd rfl ha
  | cons x a2 ih =>
    cases a2 with
    | nil =>
      rw [List.singleton_append, joinDot_cons x b hb]
      rfl
    | cons y a3 =>
      rw [List.cons_append, joinDot_cons x ((y :: a3) ++ b) (by simp),
        ih (by simp), joinDot_cons x (y :: a3) (by simp)]
      simp

namespace P0

/-- Soundness of the matcher: a returned match is an entry of the set, and
is either the (lowercased) host itself or a multi-label dot-separated
suffix of it — never a bare (single-label) TLD suffix. -/
theorem findMatchingHostInSet_sound (set : List JStr) (host m : JStr)
    (h : findMatchingHostInSet host set = some m) :
    m ∈ set ∧ (m = jsToLower host ∨
      (('.' :: m) <:+ jsToLower host ∧ '.' ∈ m)) := by
  by_cases hne : host = []
  · subst hne
    simp [findMatchingHostInSet] at h
  · by_cases hmem : jsToLower host ∈ set
    · simp only [findMatchingHostInSet, if_neg hne, if_pos hmem,
        Option.some.injEq] at h
      subst h
      exact ⟨hmem, Or.inl rfl⟩
    · simp only [findMatchingHostInSet, if_neg hne, if_neg hmem] at h
      obtain ⟨hm, qs, hlen, hsuf, heq⟩ := trySuffixes_sound set _ m h
      obtain ⟨as, has⟩ := hsuf
      refine ⟨hm, ?_⟩
      by_cases hasnil : as = []
      · subst hasnil
        simp only [List.nil_append] at has
        left
        rw [heq, has, joinDot_splitOnDot]
      · right
        have hqs : qs ≠ [] := by
          intro hq
          rw [hq] at hlen
          simp at hlen
        constructor
        · refine ⟨joinDot as, ?_⟩
          have : jsToLower host = joinDot (splitOnDot (jsToLower host)) :=
            (joinDot_splitOnDot _).symm
          rw [this, ← has, joinDot_append as qs hasnil hqs, heq]
        · rw [heq]
          exact dot_mem_joinDot qs hlen

end P0

/-- C3 (amended).  For the suffix matcher: (1) a lowercased host that is
itself an entry matches exactly; (2) any returned match is an entry equal
to the host or a multi-label dot-suffix of it (so a bare TLD entry is never
returned for a proper subdomain); (3) when `h` is the unique entry that
matches the host (as the host itself or as a multi-label dot-suffix), the
matcher returns exactly `h` — in particular `match(s.h) = h` for a
subdomain `s.h` of a multi-label entry `h` with no more specific matching
entry; (4) the empty host yields null; (5) a host matching no entry at all
yields null. -/
theorem P0.findMatchingHostInSet_most_specific_spec (set : List JStr)
    (host m h : JStr) :
    (host ≠ [] → jsToLower host ∈ set →
      P0.findMatchingHostInSet host set = some (jsToLower host)) ∧
    (P0.findMatchingHostInSet host set = some m →
      m ∈ set ∧ (m = jsToLower host ∨
        (('.' :: m) <:+ jsToLower host ∧ '.' ∈ m))) ∧
    (host ≠ [] → jsToLower host ∉ set → h ∈ set →
      ('.' :: h) <:+ jsToLower host → '.' ∈ h →
      (∀ m2 ∈ set, (m2 = jsToLower host ∨
        (('.' :: m2) <:+ jsToLower host ∧ '.' ∈ m2)) → m2 = h) →
      P0.findMatchingHostInSet host set = some h) ∧
    (P0.findMatchingHostInSet [] set = none) ∧
    ((∀ m2 ∈ set, m2 ≠ jsToLower host ∧ ¬ ('.' :: m2) <:+ jsToLower host) →
      P0.findMatchingHostInSet host set = none) := by
  refine ⟨?exact_case, P0.findMatchingHostInSet_sound set host m,
    ?unique_case, by simp [P0.findMatchingHostInSet], ?null_case⟩
  case exact_case =>
    intro hne hmem
    simp [P0.findMatchingHostInSet, if_neg hne, if_pos hmem]
  case unique_case =>
    intro hne hnotmem hmem hsuf hdot huniq
    obtain ⟨s, hs⟩ := hsuf
    have hqs_suffix : splitOnDot h <:+ splitOnDot (jsToLower host) := by
      rw [← hs, splitOnDot_append_dot]
      exact ⟨splitOnDot s, rfl⟩
    have hlen : 2 ≤ (splitOnDot h).length := two_le_splitOnDot_length h hdot
    have hjoin : joinDot (splitOnDot h) ∈ set := by
      rw [joinDot_splitOnDot]; exact hmem
    have hsome :=
      P0.trySuffixes_complete set (splitOnDot (jsToLower host))
        (splitOnDot h) hqs_suffix hlen hjoin
    obtain ⟨m2, hm2⟩ := Option.isSome_iff_exists.mp hsome
    have hfind : P0.findMatchingHostInSet host set = some m2 := by
      simp only [P0.findMatchingHostInSet, if_neg hne, if_neg hnotmem]
      exact hm2
    obtain ⟨hm2set, hm2cases⟩ := P0.findMatchingHostInSet_sound set host m2 hfind
    rcases hm2cases with heq2 | hsuffix2
    · rw [heq2] at hm2set
      exact absurd hm2set hnotmem
    · rw [hfind, huniq m2 hm2set (Or.inr hsuffix2)]
  case null_case =>
    intro hnone
    by_cases hres : P0.findMatchingHostInSet host set = none
    · exact hres
    · obtain ⟨m2, hm2⟩ := Option.ne_none_iff_exists.mp hres
      obtain ⟨hm2set, hm2cases⟩ :=
        P0.findMatchingHostInSet_sound set host m2 hm2.symm
      rcases hm2cases with heq2 | hsuffix2
      · exact absurd heq2 (hnone m2 hm2set).1
      · exact absurd hsuffix2.1 (hnone m2 hm2set).2

/-- C3 counterexample.  `example.com` is an entry of the set and
`a.b.example.com` is a valid subdomain of it, yet the matcher returns the
more specific entry `b.example.com`, not `example.com` — refuting
"for every entry h and every valid subdomain s.h, match(s.h) returns h". -/
theorem P0.findMatchingHostInSet_nested_entries_counterexample :
    js ("example.com") ∈ [js ("example.com"), js ("b.example.com")] ∧
    P0.findMatchingHostInSet (js ("a.b.example.com"))
      [js ("example.com"), js ("b.example.com")] = some (js ("b.example.com")) ∧
    P0.findMatchingHostInSet (js ("a.b.example.com"))
      [js ("example.com"), js ("b.example.com")] ≠ some (js ("example.com")) := by
  refine ⟨by decide, by decide, by decide⟩

/-- Witness for the amended C3 theorem: at concrete inputs, an exact entry
matches itself and a subdomain of the unique matching entry returns that
entry. -/
theorem P0.findMatchingHostInSet_most_specific_spec_witness :
    P0.findMatchingHostInSet (js ("evil.com")) [js ("evil.com")] =
      some (js ("evil.com")) ∧
    P0.findMatchingHostInSet (js ("a.sub.evil.com")) [js ("evil.com")] =
      some (js ("evil.com")) := by
  constructor
  · exact (P0.findMatchingHostInSet_most_specific_spec [js ("evil.com")]
      (js ("evil.com")) [] []).1 (by decide) (by decide)
  · exact (P0.findMatchingHostInSet_most_specific_spec [js ("evil.com")]
      (js ("a.sub.evil.com")) [] (js ("evil.com"))).2.2.1 (by decide)
      (by decide) (by decide) (by decide) (by decide) (by decide)

/-! ### More association-list lemmas -/

theorem mem_keys_mapSet {α β : Type} [DecidableEq α]
    (m : List (α × β)) (k x : α) (v : β) :
    x ∈ (mapSet m k v).map Prod.fst ↔ x = k ∨ x ∈ m.map Prod.fst := by
  induction m with
  | nil => simp [mapSet]
  | cons hd tl ih =>
    obtain ⟨a, b⟩ := hd
    by_cases hk : k = a
    · subst hk
      simp [mapSet]
    · simp only [mapSet, if_neg hk, List.map_cons, List.mem_cons, ih]
      tauto

theorem keys_mapSet_nodup {α β : Type} [DecidableEq α]
    (m : List (α × β)) (k : α) (v : β) (hnd : (m.map Prod.fst).Nodup) :
    ((mapSet m k v).map Prod.fst).Nodup := by
  induction m with
  | nil => simp [mapSet]
  | cons hd tl ih =>
    obtain ⟨a, b⟩ := hd
    simp only [List.map_cons, List.nodup_cons] at hnd
    by_cases hk : k = a
    · subst hk
      simp only [mapSet, if_true, List.map_cons, List.nodup_cons]
      simpa using hnd
    · simp only [mapSet, if_neg hk, List.map_cons, List.nodup_cons]
      refine ⟨?_, ih hnd.2⟩
      intro hmem
      rcases (mem_keys_mapSet tl k a v).mp hmem with heq | hmem2
      · exact hk heq.symm
      · exact hnd.1 hmem2

theorem mapGet_filter {α β : Type} [DecidableEq α]
    (m : List (α × β)) (p : α × β → Bool) (k : α) (e : β)
    (hnd : (m.map Prod.fst).Nodup) (hget : mapGet m k = some e) :
    mapGet (m.filter p) k = if p (k, e) then some e else none := by
  induction m with
  | nil => simp [mapGet] at hget
  | cons hd tl ih =>
    obtain ⟨a, b⟩ := hd
    simp only [List.map_cons, List.nodup_cons] at hnd
    by_cases hk : k = a
    · subst hk
      have hbe : b = e := by simpa [mapGet] using hget
      subst hbe
      by_cases hp : p (k, b)
      · simp [List.filter, hp, mapGet]
      · simp only [List.filter]
        rw [Bool.of_not_eq_true hp]
        simp only [Bool.false_eq_true, if_false]
        refine mapGet_eq_none_of_not_mem_keys _ _ ?_
        intro hmem
        apply hnd.1
        obtain ⟨kv, hkv, hfst⟩ := List.mem_map.mp hmem
        exact List.mem_map.mpr ⟨kv, (List.mem_filter.mp hkv).1, hfst⟩
    · simp only [mapGet, if_neg hk] at hget
      simp only [List.filter]
      cases hpb : p (a, b) with
      | true => simp only [mapGet, if_neg hk]; exact ih hnd.2 hget
      | false => exact ih hnd.2 hget

/-- C7.  For the part_004 host cache: after `setHostCacheEntry(k, safe,
reason)` at time `t0`, `getHostCacheEntry(k)` at a time `t1` within the
TTL returns the stored entry unchanged and leaves the cache as is; once
the clock has advanced beyond the TTL, it returns null and deletes `k`
from the cache's storage. -/
theorem P4.hostCache_put_get_ttl (cache : List (JStr × P4.HostEntry))
    (host : JStr) (safe : Bool) (reason : JStr) (t0 t1 : Nat)
    (hnd : (cache.map Prod.fst).Nodup) :
    (t1 - t0 ≤ P4.HOST_CHECK_TTL_MS →
      P4.getHostCacheEntry (P4.setHostCacheEntry cache host safe reason t0)
          host t1 =
        (some { safe := safe, reason := reason, ts := t0 },
         P4.setHostCacheEntry cache host safe reason t0)) ∧
    (P4.HOST_CHECK_TTL_MS < t1 - t0 →
      (P4.getHostCacheEntry (P4.setHostCacheEntry cache host safe reason t0)
          host t1).1 = none ∧
      mapGet (P4.getHostCacheEntry
          (P4.setHostCacheEntry cache host safe reason t0) host t1).2 host =
        none) := by
  have hget : mapGet (P4.setHostCacheEntry cache host safe reason t0) host =
      some { safe := safe, reason := reason, ts := t0 } :=
    mapGet_mapSet_self cache host _
  have hts : ({ safe := safe, reason := reason, ts := t0 } : P4.HostEntry).ts
      = t0 := rfl
  constructor
  · intro hfresh
    simp only [P4.getHostCacheEntry, hget, hts]
    rw [if_neg (by omega)]
  · intro hexp
    simp only [P4.getHostCacheEntry, hget, hts]
    rw [if_pos hexp]
    refine ⟨rfl, ?_⟩
    exact mapGet_mapDelete_self _ _ (keys_mapSet_nodup cache host _ hnd)

/-- Witness for C7: a concrete entry is returned unchanged 1000 ms after
the write and is gone (lookup of the key yields nothing) 2 hours after. -/
theorem P4.hostCache_put_get_ttl_witness :
    P4.getHostCacheEntry
        (P4.setHostCacheEntry [] (js ("evil.tk")) false (js ("r")) 5) (js ("evil.tk")) 1005 =
      (some { safe := false, reason := js ("r"), ts := 5 },
       P4.setHostCacheEntry [] (js ("evil.tk")) false (js ("r")) 5) ∧
    (P4.getHostCacheEntry
        (P4.setHostCacheEntry [] (js ("evil.tk")) false (js ("r")) 5) (js ("evil.tk"))
        7200005).1 = none ∧
    mapGet (P4.getHostCacheEntry
        (P4.setHostCacheEntry [] (js ("evil.tk")) false (js ("r")) 5) (js ("evil.tk"))
        7200005).2 (js ("evil.tk")) = none := by
  refine ⟨?_, ?_⟩
  · exact (P4.hostCache_put_get_ttl [] (js ("evil.tk")) false (js ("r")) 5 1005
      (by decide)).1 (by decide)
  · exact (P4.hostCache_put_get_ttl [] (js ("evil.tk")) false (js ("r")) 5 7200005
      (by decide)).2 (by decide)

/-- C5.  BG host-cache persistence round-trip: persisting the cache and
loading it in a fresh process restores every entry whose (nonzero)
timestamp is still within the TTL — identical `safe`, `reason`, `source`
(the whole entry is restored verbatim) — and drops every entry whose age
reached the TTL. -/
theorem BG.hostCache_persist_load_roundtrip
    (cache : List (JStr × BG.HostEntry)) (k : JStr) (e : BG.HostEntry)
    (now : Nat) (hnd : (cache.map Prod.fst).Nodup)
    (hget : mapGet cache k = some e) :
    (e.ts ≠ 0 → now - e.ts < BG.HOST_CACHE_TTL_MS →
      mapGet (BG.loadPersistedHostCache (BG.persistHostCache cache) now) k =
        some e) ∧
    (BG.HOST_CACHE_TTL_MS ≤ now - e.ts →
      mapGet (BG.loadPersistedHostCache (BG.persistHostCache cache) now) k =
        none) := by
  have hfilter := mapGet_filter cache
    (fun kv => decide (kv.2.ts ≠ 0 ∧ now - kv.2.ts < BG.HOST_CACHE_TTL_MS))
    k e hnd hget
  constructor
  · intro hts hfresh
    rw [BG.loadPersistedHostCache, BG.persistHostCache, hfilter,
      if_pos (by simp [hts, hfresh])]
  · intro hexp
    rw [BG.loadPersistedHostCache, BG.persistHostCache, hfilter,
      if_neg (by simp; intro _; omega)]

/-- Witness for C5: a concrete two-entry cache round-trips — the fresh
entry survives with identical fields, the expired one is dropped. -/
theorem BG.hostCache_persist_load_roundtrip_witness :
    mapGet (BG.loadPersistedHostCache (BG.persistHostCache
        [(js ("a.com"), { safe := false, reason := js ("bad"), ts := 50,
                          source := js ("safebrowsing") }),
         (js ("b.com"), { safe := true, reason := [], ts := 20,
                          source := js ("no-api-key") })]) 3600030)
      (js ("a.com")) =
      some { safe := false, reason := js ("bad"), ts := 50,
             source := js ("safebrowsing") } ∧
    mapGet (BG.loadPersistedHostCache (BG.persistHostCache
        [(js ("a.com"), { safe := false, reason := js ("bad"), ts := 50,
                          source := js ("safebrowsing") }),
         (js ("b.com"), { safe := true, reason := [], ts := 20,
                          source := js ("no-api-key") })]) 3600030)
      (js ("b.com")) = none := by
  constructor
  · exact (BG.hostCache_persist_load_roundtrip
      [(js ("a.com"), { safe := false, reason := js ("bad"), ts := 50,
                        source := js ("safebrowsing") }),
       (js ("b.com"), { safe := true, reason := [], ts := 20,
                        source := js ("no-api-key") })]
      (js ("a.com"))
      { safe := false, reason := js ("bad"), ts := 50,
        source := js ("safebrowsing") }
      3600030 (by decide) (by decide)).1 (by decide) (by decide)
  · exact (BG.hostCache_persist_load_roundtrip
      [(js ("a.com"), { safe := false, reason := js ("bad"), ts := 50,
                        source := js ("safebrowsing") }),
       (js ("b.com"), { safe := true, reason := [], ts := 20,
                        source := js ("no-api-key") })]
      (js ("b.com"))
      { safe := true, reason := [], ts := 20, source := js ("no-api-key") }
      3600030 (by decide) (by decide)).2 (by decide)

/-- C6.  Heuristic rule order: whenever no earlier rule fires (host not
allowlisted, local-blocklist rule skipped or not matching, no punycode
marker, not a dotted-quad IP, length at most 24) and the host satisfies
BOTH the suspicious-TLD rule and the brand-token rule, `runHeuristics`
returns the suspicious-TLD reason — the TLD check precedes the brand
check, first match wins. -/
theorem P4.runHeuristics_tld_before_brand (hostRaw : JStr)
    (allowlist blocklist : List JStr) (skipLocalDb : Bool)
    (hne : hostRaw ≠ [])
    (hallow : jsToLower hostRaw ∉ allowlist)
    (hblock : skipLocalDb = true ∨ jsToLower hostRaw ∉ blocklist)
    (hxn : jsIncludes (jsToLower hostRaw) (js ("xn--")) = false)
    (hip : isDottedQuad (jsToLower hostRaw) = false)
    (hlen : (jsToLower hostRaw).length ≤ 24)
    (htld : (splitOnDot (jsToLower hostRaw)).getLastD [] ∈ P4.SUSPICIOUS_TLDS)
    (hbrand : ∃ b ∈ P4.brandTokens, jsIncludes (jsToLower hostRaw) b = true ∧
      jsEndsWith (jsToLower hostRaw) (b ++ js (".com")) = false) :
    P4.runHeuristics hostRaw allowlist blocklist skipLocalDb =
      some (js ("Suspicious TLD (.") ++
        (splitOnDot (jsToLower hostRaw)).getLastD [] ++ js (")")) := by
  have hne2 : jsToLower hostRaw ≠ [] := by
    intro hcontra
    exact hne (List.map_eq_nil_iff.mp hcontra)
  have hblock2 : ¬ (skipLocalDb = false ∧ jsToLower hostRaw ∈ blocklist) := by
    rcases hblock with h1 | h1
    · rintro ⟨h2, _⟩; rw [h1] at h2; cases h2
    · rintro ⟨_, h2⟩; exact h1 h2
  simp only [P4.runHeuristics]
  rw [if_neg hne2, if_neg hallow, if_neg hblock2,
    if_neg (by rw [hxn]; exact Bool.false_ne_true),
    if_neg (by rw [hip]; exact Bool.false_ne_true),
    if_neg (by omega), if_pos htld]

/-- Witness for C6: `paypal-login.tk` satisfies both the suspicious-TLD and
the brand-token rule and gets the suspicious-TLD reason. -/
theorem P4.runHeuristics_tld_before_brand_witness :
    P4.runHeuristics (js ("paypal-login.tk")) [] [] false =
      some (js ("Suspicious TLD (.tk)")) := by
  rw [P4.runHeuristics_tld_before_brand (js ("paypal-login.tk")) [] [] false
    (by decide) (by decide) (Or.inr (by decide)) (by decide) (by decide)
    (by decide) (by decide) (by decide)]
  decide

/-- C4 counterexample.  With the previous snapshot holding `evil.com`, a
refresh in which the OpenPhish fetch returns non-OK and the local URLhaus
file is missing (every source contributes zero hosts) publishes the EMPTY
host set — the previous snapshot is replaced, not kept. -/
theorem P0.updateFeeds_total_failure_counterexample :
    (P0.updateFeeds { hosts := [js ("evil.com")], loadedAt := 0 }
      P0.FetchOutcome.httpNonOk P0.LocalReadOutcome.missing 99).hosts = [] ∧
    ({ hosts := [js ("evil.com")], loadedAt := 0 } : P0.FeedState).hosts ≠ [] := by
  exact ⟨rfl, by decide⟩

/-- C4 (amended).  Whenever every source contributes zero hosts — which is
what both a non-OK response and a thrown fetch error produce, since
`fetchOpenPhishFeed`/`readLocalUrlhausHosts` catch and return `[]` — the
refresh publishes an empty `feedHostSet`, unconditionally replacing
whatever snapshot was previously served.  The previous snapshot survives
only if `updateFeeds` itself throws before publication, which the
per-source error handling prevents on these paths. -/
theorem P0.updateFeeds_total_failure_publishes_empty (st : P0.FeedState)
    (openO : P0.FetchOutcome) (localO : P0.LocalReadOutcome) (now : Nat)
    (hopen : P0.fetchOpenPhishFeed openO = [])
    (hlocal : P0.readLocalUrlhausHosts localO = []) :
    (P0.updateFeeds st openO localO now).hosts = [] := by
  simp [P0.updateFeeds, hopen, hlocal]

/-- Witness for the amended C4 theorem at a concrete failing refresh. -/
theorem P0.updateFeeds_total_failure_publishes_empty_witness :
    (P0.updateFeeds { hosts := [js ("kept.example")], loadedAt := 3 }
      P0.FetchOutcome.networkErr P0.LocalReadOutcome.readErr 7).hosts = [] :=
  P0.updateFeeds_total_failure_publishes_empty
    { hosts := [js ("kept.example")], loadedAt := 3 }
    P0.FetchOutcome.networkErr P0.LocalReadOutcome.readErr 7 rfl rfl

/-- C10.  A `/check` request with a missing or empty `url` parameter gets
HTTP 400 with `{error: 'missing url'}` and the decision cache is returned
unchanged; a `/checkHost` request whose host parameter lowercases/trims to
the empty string gets HTTP 400 with `{error: 'missing host'}` (that
endpoint never touches the URL decision cache at all). -/
theorem P0.check_missing_target_400 (hostname : Option JStr) (now : Nat)
    (cache : List (JStr × P0.UrlCacheEntry)) (feeds : List JStr)
    (sb : P0.SbOutcome) (ptConfigured : Bool) (pt : Option (Bool × Bool))
    (hostQ : Option JStr)
    (hhost : jsTrim (jsToLower (hostQ.getD [])) = []) :
    P0.appGetCheck none hostname now cache feeds sb ptConfigured pt =
      (.badRequest (js ("missing url")), cache) ∧
    P0.appGetCheck (some []) hostname now cache feeds sb ptConfigured pt =
      (.badRequest (js ("missing url")), cache) ∧
    P0.appGetCheckHost hostQ feeds = .badRequest (js ("missing host")) := by
  refine ⟨rfl, rfl, ?_⟩
  simp [P0.appGetCheckHost, hhost]

/-- Witness for C10: absent url, empty url, and a whitespace-only host
parameter all yield the 400 responses with the cache untouched. -/
theorem P0.check_missing_target_400_witness :
    P0.appGetCheck none (some (js ("x.test"))) 5
        [(js ("u"), { safe := true, feedsMatch := none, sbMatch := false,
                      ptMatch := none, ts := 1, safebrowsing_used := false })]
        [] P0.SbOutcome.transportErr false none =
      (.badRequest (js ("missing url")),
       [(js ("u"), { safe := true, feedsMatch := none, sbMatch := false,
                     ptMatch := none, ts := 1, safebrowsing_used := false })]) ∧
    P0.appGetCheck (some []) (some (js ("x.test"))) 5
        [(js ("u"), { safe := true, feedsMatch := none, sbMatch := false,
                      ptMatch := none, ts := 1, safebrowsing_used := false })]
        [] P0.SbOutcome.transportErr false none =
      (.badRequest (js ("missing url")),
       [(js ("u"), { safe := true, feedsMatch := none, sbMatch := false,
                     ptMatch := none, ts := 1, safebrowsing_used := false })]) ∧
    P0.appGetCheckHost (some (js ("   "))) [js ("evil.com")] =
      .badRequest (js ("missing host")) :=
  P0.check_missing_target_400 (some (js ("x.test"))) 5
    [(js ("u"), { safe := true, feedsMatch := none, sbMatch := false,
                  ptMatch := none, ts := 1, safebrowsing_used := false })]
    [] P0.SbOutcome.transportErr false none (some (js ("   "))) (by decide)

/-- C8.  The host-only pipeline never issues a Safe Browsing request: for
every host, configuration, cache state and proxy outcome, the
`CHECK_HOST_HOVER` handler's outbound calls never include the remote
reputation API (only, at most, the proxy host-only feed lookup), and the
server-side `/checkHost` endpoint answers with `safebrowsing_used = false`
unconditionally. -/
theorem hostOnly_pipeline_never_calls_safe_browsing :
    ∀ (msgHost : JStr) (allowlist blocklist : List JStr)
      (useCloudLookup useSafeBrowsingOnly : Bool)
      (hostCache : List (JStr × P4.HostEntry))
      (hoverCache : List (JStr × P4.HoverEntry)) (now : Nat)
      (proxyHost : P4.ProxyHostResult) (hostQ : Option JStr)
      (feeds : List JStr),
      ((P4.checkHostHover msgHost allowlist blocklist useCloudLookup
          useSafeBrowsingOnly hostCache hoverCache now
          proxyHost).calls.contains Call.safeBrowsingRemote) = false ∧
      (P0.appGetCheckHost hostQ feeds).sbUsedOf = false := by
  intro msgHost allowlist blocklist useCloudLookup useSafeBrowsingOnly
    hostCache hoverCache now proxyHost hostQ feeds
  constructor
  · simp only [P4.checkHostHover]
    repeat' split
    all_goals rfl
  · simp only [P0.appGetCheckHost]
    repeat' split
    all_goals rfl

/-- C1 counterexample.  With Safe-Browsing-only mode and direct lookup
enabled, the part_004 navigation check blocks `example.com` on a Safe
Browsing match even though `example.com` is on the allowlist: the
navigation path in this mode never consults the allowlist. -/
theorem P4.onBeforeNavigate_blocks_allowlisted_host_counterexample :
    jsToLower (js ("example.com")) ∈ [js ("example.com")] ∧
    (P4.onBeforeNavigate true [js ("example.com")] [] false true true
      (js ("k")) (some (js ("example.com"))) [] 0
      (some (js ("Matches Google Safe Browsing (direct)")))
      P4.ProxyUrlResult.fetchError).blocked = true := by
  refine ⟨by decide, by decide⟩

/-- C1 (amended).  Allowlist precedence holds for the host-only hover check
(a nonempty allowlisted host is answered `safe` before any cache,
heuristic or feed consultation, under every configuration) and inside the
heuristic classifier (an allowlisted host never yields a heuristic
reason); it does NOT extend to the full-URL navigation check, whose
remote branches (Safe-Browsing-only mode, or the proxy/direct steps of
normal mode) skip the allowlist and can block an allowlisted host. -/
theorem P4.allowlist_precedence_hover_and_heuristics
    (msgHost : JStr) (allowlist blocklist : List JStr)
    (useCloudLookup useSafeBrowsingOnly skipLocalDb : Bool)
    (hostCache : List (JStr × P4.HostEntry))
    (hoverCache : List (JStr × P4.HoverEntry)) (now : Nat)
    (proxyHost : P4.ProxyHostResult)
    (hne : jsToLower msgHost ≠ [])
    (hallow : jsToLower msgHost ∈ allowlist) :
    (P4.checkHostHover msgHost allowlist blocklist useCloudLookup
      useSafeBrowsingOnly hostCache hoverCache now proxyHost).status =
        js ("safe") ∧
    P4.runHeuristics msgHost allowlist blocklist skipLocalDb = none := by
  constructor
  · simp only [P4.checkHostHover]
    rw [if_neg hne, if_pos hallow]
  · simp only [P4.runHeuristics]
    rw [if_neg hne, if_pos hallow]

/-- Witness for the amended C1 theorem at a concrete allowlisted host. -/
theorem P4.allowlist_precedence_hover_and_heuristics_witness :
    (P4.checkHostHover (js ("good.example")) [js ("good.example")]
      [js ("good.example")] true false [] [] 0
      (P4.ProxyHostResult.okFlagged none)).status = js ("safe") ∧
    P4.runHeuristics (js ("good.example")) [js ("good.example")]
      [js ("good.example")] false = none :=
  P4.allowlist_precedence_hover_and_heuristics (js ("good.example"))
    [js ("good.example")] [js ("good.example")] true false false [] [] 0
    (P4.ProxyHostResult.okFlagged none) (by decide) (by decide)

/-- C2 counterexample.  With an empty cache and no feed match, a non-OK
Safe Browsing response makes `/check` answer a definitive `safe:true`
(not an unknown/inconclusive status) AND write a `{safe: true}` cache
entry for the URL key — refuting both halves of the claim. -/
theorem P0.check_sb_failure_caches_safe_counterexample :
    (P0.appGetCheck (some (js ("http://x.test/"))) (some (js ("x.test"))) 0
      [] [] P0.SbOutcome.httpNonOk false none).1 =
        P0.CheckResp.ok true false true ∧
    mapGet (P0.appGetCheck (some (js ("http://x.test/"))) (some (js ("x.test")))
        0 [] [] P0.SbOutcome.httpNonOk false none).2 (js ("http://x.test/")) =
      some { safe := true, feedsMatch := none, sbMatch := false,
             ptMatch := none, ts := 0, safebrowsing_used := true } := by
  refine ⟨by decide, by decide⟩

/-- C2 (amended).  When the remote reputation lookup fails (non-success
response or transport failure), the engine does NOT treat the outcome as
unknown: it proceeds as if the URL were safe and records a definitive safe
cache entry.  Concretely: on a cache miss with no feed match, `/check`
responds `{safe: true, safebrowsing_used: true}` and caches
`{safe: true, safebrowsing_used: true}` under the URL key; and the BG
navigation listener, on a Safe Browsing error for an uncached,
un-allowlisted, un-blocklisted host, does not block and caches the host
as safe with source `'gsb-error'`. -/
theorem remote_failure_treated_as_safe_and_cached
    (url : JStr) (hostname : Option JStr) (now : Nat)
    (cache : List (JStr × P0.UrlCacheEntry)) (feeds : List JStr)
    (ptConfigured : Bool) (pt : Option (Bool × Bool)) (sb : P0.SbOutcome)
    (allowlistRaw blocklist : List JStr) (bgCache : List (JStr × BG.HostEntry))
    (apiKey bgHost : JStr) (now2 : Nat)
    (hurl : url ≠ [])
    (hmiss : mapGet cache url = none)
    (hfeeds : (match hostname with
               | some h => P0.findMatchingHostInSet h feeds
               | none => none) = none)
    (hsb : sb = P0.SbOutcome.httpNonOk ∨ sb = P0.SbOutcome.transportErr)
    (hnorm : BG.normalizeHost bgHost = bgHost)
    (hallow : bgHost ∉ allowlistRaw.map BG.normalizeHost)
    (hblock : bgHost ∉ blocklist)
    (hmiss2 : mapGet bgCache bgHost = none)
    (hkey : apiKey ≠ []) :
    (P0.appGetCheck (some url) hostname now cache feeds sb ptConfigured pt).1 =
      P0.CheckResp.ok true false true ∧
    mapGet (P0.appGetCheck (some url) hostname now cache feeds sb
        ptConfigured pt).2 url =
      some { safe := true, feedsMatch := none, sbMatch := false,
             ptMatch := none, ts := now, safebrowsing_used := true } ∧
    (BG.onBeforeNavigate true allowlistRaw blocklist bgCache apiKey bgHost
      now2 BG.SbResult.sbError).blocked = false ∧
    mapGet (BG.onBeforeNavigate true allowlistRaw blocklist bgCache apiKey
        bgHost now2 BG.SbResult.sbError).hostCache bgHost =
      some { safe := true, reason := [], ts := now2,
             source := js ("gsb-error") } := by
  have hserver : P0.appGetCheck (some url) hostname now cache feeds sb
      ptConfigured pt =
      (P0.CheckResp.ok true false true,
       mapSet cache url
         { safe := true, feedsMatch := none, sbMatch := false,
           ptMatch := none, ts := now, safebrowsing_used := true }) := by
    simp only [P0.appGetCheck]
    rw [if_neg hurl, hmiss]
    simp only [P0.appGetCheckUncached, hfeeds]
    rcases hsb with h | h <;> subst h <;> rfl
  have hbg : BG.onBeforeNavigate true allowlistRaw blocklist bgCache apiKey
      bgHost now2 BG.SbResult.sbError =
      { blocked := false,
        hostCache := BG.setHostCacheEntry bgCache bgHost true []
          (js ("gsb-error")) now2,
        calls := [Call.safeBrowsingRemote] } := by
    simp only [BG.onBeforeNavigate, hnorm]
    rw [if_neg (by simp), if_neg hallow, if_neg hblock]
    simp only [BG.getHostCacheEntry, hnorm, hmiss2]
    rw [if_neg hkey]
  refine ⟨by rw [hserver], ?_, by rw [hbg], ?_⟩
  · rw [hserver]
    exact mapGet_mapSet_self cache url _
  · rw [hbg]
    show mapGet (mapSet bgCache (BG.normalizeHost bgHost) _) bgHost = _
    rw [hnorm]
    exact mapGet_mapSet_self bgCache bgHost _

/-- Witness for the amended C2 theorem at a concrete failing lookup. -/
theorem remote_failure_treated_as_safe_and_cached_witness :
    (P0.appGetCheck (some (js ("http://y.test/"))) (some (js ("y.test"))) 1
      [] [] P0.SbOutcome.transportErr false none).1 =
        P0.CheckResp.ok true false true ∧
    mapGet (P0.appGetCheck (some (js ("http://y.test/"))) (some (js ("y.test")))
        1 [] [] P0.SbOutcome.transportErr false none).2 (js ("http://y.test/")) =
      some { safe := true, feedsMatch := none, sbMatch := false,
             ptMatch := none, ts := 1, safebrowsing_used := true } ∧
    (BG.onBeforeNavigate true [] [] [] (js ("k")) (js ("y.test")) 9
      BG.SbResult.sbError).blocked = false ∧
    mapGet (BG.onBeforeNavigate true [] [] [] (js ("k")) (js ("y.test")) 9
        BG.SbResult.sbError).hostCache (js ("y.test")) =
      some { safe := true, reason := [], ts := 9,
             source := js ("gsb-error") } :=
  remote_failure_treated_as_safe_and_cached (js ("http://y.test/"))
    (some (js ("y.test"))) 1 [] [] false none P0.SbOutcome.transportErr
    [] [] [] (js ("k")) (js ("y.test")) 9 (by decide) (by decide) (by decide)
    (Or.inr rfl) (by decide) (by decide) (by decide) (by decide) (by decide)

/-! ### Lemmas about `BG.normalizeHost` -/

theorem dropWhile_eq_self_of_all_false {α : Type} (p : α → Bool)
    (l : List α) (h : ∀ c ∈ l, p c = false) : l.dropWhile p = l := by
  cases l with
  | nil => rfl
  | cons a t => simp [List.dropWhile, h a (List.mem_cons_self a t)]

theorem takeWhile_eq_self_of_all_true {α : Type} (p : α → Bool)
    (l : List α) (h : ∀ c ∈ l, p c = true) : l.takeWhile p = l := by
  induction l with
  | nil => rfl
  | cons a t ih =>
    simp [List.takeWhile, h a (List.mem_cons_self a t),
      ih (fun c hc => h c (List.mem_cons_of_mem a hc))]

theorem map_eq_self_of_all_fixed {α : Type} (f : α → α) (l : List α)
    (h : ∀ c ∈ l, f c = c) : l.map f = l := by
  induction l with
  | nil => rfl
  | cons a t ih =>
    simp [h a (List.mem_cons_self a t),
      ih (fun c hc => h c (List.mem_cons_of_mem a hc))]

theorem jsTrim_eq_self (l : JStr) (h : ∀ c ∈ l, jsIsWs c = false) :
    jsTrim l = l := by
  unfold jsTrim
  rw [dropWhile_eq_self_of_all_false _ _ h,
    dropWhile_eq_self_of_all_false _ _
      (fun c hc => h c (List.mem_reverse.mp hc)),
    List.reverse_reverse]

theorem jsStartsWith_append (pre s : JStr) :
    jsStartsWith (pre ++ s) pre = true := by
  unfold jsStartsWith
  induction pre with
  | nil => simp
  | cons a t ih => simp [List.isPrefixOf_cons₂, ih]

theorem jsStartsWith_head_ne (c d : Char) (s t : JStr) (hne : d ≠ c) :
    jsStartsWith (c :: s) (d :: t) = false := by
  simp [jsStartsWith, List.isPrefixOf_cons₂, hne]

theorem stripScheme_eq_self (s : JStr)
    (h1 : jsStartsWith s (js ("https://")) = false)
    (h2 : jsStartsWith s (js ("http://")) = false) : BG.stripScheme s = s := by
  simp [BG.stripScheme, h1, h2]

theorem www_chars (c : Char) (hc : c ∈ js ("www.")) : c = 'w' ∨ c = '.' := by
  have hlist : js ("www.") = ['w', 'w', 'w', '.'] := rfl
  rw [hlist] at hc
  simp only [List.mem_cons, List.not_mem_nil, or_false] at hc
  tauto

/-- C9 counterexample.  The key actually stored for input
`www.www.example.com` is `www.example.com` — it retains a `www.` prefix —
and a `get` for `www.example.com` after a `put` for `www.` ++
`www.example.com` misses (the two address different keys), refuting both
"every key stored is free of a www. prefix" and "put and get for www.h
and h address the same entry". -/
theorem BG.hostCache_www_key_counterexample :
    (BG.setHostCacheEntry [] (js ("www.www.example.com")) false (js ("r"))
      (js ("heuristic")) 5).map Prod.fst = [js ("www.example.com")] ∧
    jsStartsWith (js ("www.example.com")) (js ("www.")) = true ∧
    (BG.getHostCacheEntry
      (BG.setHostCacheEntry [] (js ("www.www.example.com")) false (js ("r"))
        (js ("heuristic")) 5)
      (js ("www.example.com")) 5).1 = none := by
  refine ⟨by decide, by decide, by decide⟩

/-- C9 (amended).  `setHostCacheEntry` and `getHostCacheEntry` key the
cache by `normalizeHost` (trim, lowercase, strip one scheme, strip the
path, strip ONE leading `www.`).  For a plain host `h` (no whitespace, no
uppercase, no slash, not itself beginning `www.`), `normalizeHost`
collapses `www.h` and `h` to the same key `h`, so a put under `www.h` is
found by a get under `h`; but the stripping is single-shot, so a key
stored for an input beginning `www.www.` retains a `www.` prefix (see the
counterexample). -/
theorem BG.hostCache_www_collapse_spec (h : JStr)
    (cache : List (JStr × BG.HostEntry)) (safe : Bool) (reason source : JStr)
    (t0 t1 : Nat)
    (hplain : ∀ c ∈ h, jsIsWs c = false ∧ Char.toLower c = c ∧ c ≠ '/')
    (hwww : jsStartsWith h (js ("www.")) = false)
    (hfresh : t1 - t0 ≤ BG.HOST_CACHE_TTL_MS) :
    BG.normalizeHost (js ("www.") ++ h) = h ∧
    BG.normalizeHost h = h ∧
    (BG.getHostCacheEntry
      (BG.setHostCacheEntry cache (js ("www.") ++ h) safe reason source t0)
      h t1).1 =
      some { safe := safe, reason := reason, ts := t0, source := source } := by
  have hslash : ∀ c ∈ h, (decide (c ≠ '/')) = true := by
    intro c hc
    simpa using (hplain c hc).2.2
  have hnorm1 : BG.normalizeHost (js ("www.") ++ h) = h := by
    unfold BG.normalizeHost
    rw [jsTrim_eq_self _ (by
      intro c hc
      rcases List.mem_append.mp hc with hc | hc
      · rcases www_chars c hc with rfl | rfl <;> rfl
      · exact (hplain c hc).1)]
    rw [show jsToLower (js ("www.") ++ h) = js ("www.") ++ h from
      map_eq_self_of_all_fixed _ _ (by
        intro c hc
        rcases List.mem_append.mp hc with hc | hc
        · rcases www_chars c hc with rfl | rfl <;> rfl
        · exact (hplain c hc).2.1)]
    have hsch1 : jsStartsWith (js ("www.") ++ h) (js ("https://")) = false :=
      jsStartsWith_head_ne 'w' 'h' (js ("ww.") ++ h) (js ("ttps://"))
        (by decide)
    have hsch2 : jsStartsWith (js ("www.") ++ h) (js ("http://")) = false :=
      jsStartsWith_head_ne 'w' 'h' (js ("ww.") ++ h) (js ("ttp://"))
        (by decide)
    rw [stripScheme_eq_self _ hsch1 hsch2]
    rw [show BG.stripPath (js ("www.") ++ h) = js ("www.") ++ h from
      takeWhile_eq_self_of_all_true _ _ (by
        intro c hc
        rcases List.mem_append.mp hc with hc | hc
        · rcases www_chars c hc with rfl | rfl <;> rfl
        · exact hslash c hc)]
    unfold BG.stripWww
    rw [if_pos (jsStartsWith_append (js ("www.")) h)]
    rfl
  have hnorm2 : BG.normalizeHost h = h := by
    unfold BG.normalizeHost
    rw [jsTrim_eq_self _ (fun c hc => (hplain c hc).1)]
    rw [show jsToLower h = h from
      map_eq_self_of_all_fixed _ _ (fun c hc => (hplain c hc).2.1)]
    have hs1 : jsStartsWith h (js ("https://")) = false := by
      cases hsw : jsStartsWith h (js ("https://")) with
      | false => rfl
      | true =>
        exfalso
        have hpre : js ("https://") <+: h := by
          rw [jsStartsWith] at hsw
          exact List.isPrefixOf_iff_prefix.mp hsw
        exact ((hplain '/' (hpre.subset (by decide))).2.2) rfl
    have hs2 : jsStartsWith h (js ("http://")) = false := by
      cases hsw : jsStartsWith h (js ("http://")) with
      | false => rfl
      | true =>
        exfalso
        have hpre : js ("http://") <+: h := by
          rw [jsStartsWith] at hsw
          exact List.isPrefixOf_iff_prefix.mp hsw
        exact ((hplain '/' (hpre.subset (by decide))).2.2) rfl
    rw [stripScheme_eq_self _ hs1 hs2]
    rw [show BG.stripPath h = h from
      takeWhile_eq_self_of_all_true _ _ hslash]
    unfold BG.stripWww
    rw [if_neg (by rw [hwww]; exact Bool.false_ne_true)]
  refine ⟨hnorm1, hnorm2, ?_⟩
  have hkey : BG.setHostCacheEntry cache (js ("www.") ++ h) safe reason
      source t0 =
      mapSet cache h { safe := safe, reason := reason, ts := t0,
                       source := source } := by
    unfold BG.setHostCacheEntry
    rw [hnorm1]
  have hcond : ¬ BG.HOST_CACHE_TTL_MS < t1 - t0 := by omega
  rw [hkey]
  simp [BG.getHostCacheEntry, hnorm2, mapGet_mapSet_self, hcond]

/-- Witness for the amended C9 theorem at a concrete plain host. -/
theorem BG.hostCache_www_collapse_spec_witness :
    BG.normalizeHost (js ("www.") ++ js ("example.com")) = js ("example.com") ∧
    BG.normalizeHost (js ("example.com")) = js ("example.com") ∧
    (BG.getHostCacheEntry
      (BG.setHostCacheEntry [] (js ("www.") ++ js ("example.com")) true
        (js ("ok")) (js ("safebrowsing")) 2)
      (js ("example.com")) 100).1 =
      some { safe := true, reason := js ("ok"), ts := 2,
             source := js ("safebrowsing") } :=
  BG.hostCache_www_collapse_spec (js ("example.com")) [] true (js ("ok"))
    (js ("safebrowsing")) 2 100 (by decide) (by decide) (by decide)
